import Mathlib

/-!
Shallow embedding of the IRIS hybrid-intelligence core
(`src/core/hybrid_intelligence.py` and `src/core/iris.py`).

Python floats are modelled as rationals (ℚ), Python ints as ℤ or ℕ,
timestamps (`time.time()`) as ℚ parameters supplied by the caller.
Provider capability invocations (`_ollama_process`, `_huggingface_*`,
`_openai_process`) are opaque external calls behind a uniform contract
(spec §1: "each provider is an abstract capability"); they are modelled
by an `oracle` parameter returning `Option ProviderResult` (`none` is a
raised exception).  The last-resort `_fallback_process` body is a total
template responder (`random.choice` over four f-strings, which cannot
raise); it is embedded exactly, with the random index as a parameter.
-/

/-- The `AIProvider` enum. -/
inductive AIProvider where
  | ollama_local
  | huggingface_local
  | huggingface_cloud
  | openai_cloud
  | fallback_local
deriving DecidableEq, Repr

/-- `AIProvider.value` — the string value of each enum member. -/
def AIProvider.value : AIProvider → String
  | .ollama_local => "ollama_local"
  | .huggingface_local => "huggingface_local"
  | .huggingface_cloud => "huggingface_cloud"
  | .openai_cloud => "openai_cloud"
  | .fallback_local => "fallback_local"

/-- The `ProviderStatus` enum. -/
inductive ProviderStatus where
  | AVAILABLE
  | UNAVAILABLE
  | RATE_LIMITED
  | ERROR
deriving DecidableEq, Repr

/-- Window kind of a rate limit: the source stores it as the presence of a
`"per_hour"` or `"per_minute"` key in the rate-limit dict. -/
inductive WindowKind where
  | per_hour
  | per_minute
deriving DecidableEq, Repr

/-- The `rate_limit` dict: `{"max_requests": _, "per_hour"/"per_minute": 1, "current": _}`. -/
structure RateLimit where
  max_requests : ℕ
  window : WindowKind
  current : ℕ
deriving DecidableEq, Repr

/-- The per-provider info dict held in `self.providers`. -/
structure ProviderInfo where
  status : ProviderStatus
  priority : ℤ
  cost : ℚ
  latency : ℚ
  quality : ℚ
  last_used : ℚ
  rate_limit : Option RateLimit
  error_count : ℤ
deriving DecidableEq, Repr

/-- Insertion order of the `self.providers` dict literal (Python dicts preserve
insertion order; the key set is fixed for the life of the process). -/
def providerOrder : List AIProvider :=
  [.ollama_local, .huggingface_local, .huggingface_cloud, .openai_cloud, .fallback_local]

/-- The initial provider table built in `HybridIntelligenceManager.__init__`. -/
def initProviders : AIProvider → ProviderInfo
  | .ollama_local =>
      { status := .AVAILABLE, priority := 1, cost := 0, latency := 2, quality := 85/100,
        last_used := 0, rate_limit := none, error_count := 0 }
  | .huggingface_local =>
      { status := .AVAILABLE, priority := 2, cost := 0, latency := 3, quality := 80/100,
        last_used := 0, rate_limit := none, error_count := 0 }
  | .huggingface_cloud =>
      { status := .AVAILABLE, priority := 3, cost := 0, latency := 3/2, quality := 88/100,
        last_used := 0,
        rate_limit := some { max_requests := 1000, window := .per_hour, current := 0 },
        error_count := 0 }
  | .openai_cloud =>
      { status := .AVAILABLE, priority := 4, cost := 2/1000, latency := 6/5, quality := 95/100,
        last_used := 0,
        rate_limit := some { max_requests := 60, window := .per_minute, current := 0 },
        error_count := 0 }
  | .fallback_local =>
      { status := .AVAILABLE, priority := 5, cost := 0, latency := 1/10, quality := 1/2,
        last_used := 0, rate_limit := none, error_count := 0 }

/-- The manager's mutable configuration besides the provider table. -/
structure ManagerState where
  providers : AIProvider → ProviderInfo
  routing_strategy : String
  fallback_enabled : Bool

/-- `HybridIntelligenceManager.__init__`: full initial state. -/
def initState : ManagerState :=
  { providers := initProviders, routing_strategy := "smart", fallback_enabled := true }

/-- `_check_rate_limit`: returns the provider info after the in-place window
reset together with the boolean result.  `now` is `time.time()`. -/
def check_rate_limit (info : ProviderInfo) (now : ℚ) : ProviderInfo × Bool :=
  match info.rate_limit with
  | none => (info, true)
  | some rl =>
      let rl' :=
        match rl.window with
        | .per_hour => if now - info.last_used > 3600 then { rl with current := 0 } else rl
        | .per_minute => if now - info.last_used > 60 then { rl with current := 0 } else rl
      ({ info with rate_limit := some rl' }, decide (rl'.current < rl'.max_requests))

/-- `_update_provider_stats`: unconditionally stamps `last_used`; on success
decrements `error_count` (floor 0) and clears ERROR; on failure increments
`error_count` and forces ERROR at the threshold 3; finally increments the
rate-limit counter when one is configured. -/
def update_provider_stats (info : ProviderInfo) (success : Bool) (now : ℚ) : ProviderInfo :=
  let info := { info with last_used := now }
  let info :=
    if success then
      { info with
        error_count := max 0 (info.error_count - 1),
        status := if info.status = .ERROR then .AVAILABLE else info.status }
    else
      { info with
        error_count := info.error_count + 1,
        status := if info.error_count + 1 ≥ 3 then .ERROR else info.status }
  match info.rate_limit with
  | none => info
  | some rl => { info with rate_limit := some { rl with current := rl.current + 1 } }

/-- Evaluates `"local" in provider.value.lower()` on each (fixed) enum value. -/
def is_local_provider : AIProvider → Bool
  | .ollama_local => true
  | .huggingface_local => true
  | .huggingface_cloud => false
  | .openai_cloud => false
  | .fallback_local => true

/-- `calculate_score` inside `_smart_selection`, including the final
`max(0, score)` clamp. -/
def calculate_score (ps : AIProvider → ProviderInfo) (msg : String) (p : AIProvider) : ℚ :=
  let info := ps p
  let score := info.quality * (4/10) + ((6 - info.priority : ℤ) : ℚ) * (1/10)
  let score := score - info.latency * (1/10)
  let score := score - info.cost * 10
  let score := score - (info.error_count : ℚ) * (5/100)
  let score := if is_local_provider p then score + 2/10 else score
  let score := if msg.length > 500 then score + info.quality * (2/10) else score
  max 0 score

/-- Python `max(xs, key=f)` accumulator: keeps the current best, replacing it
only on a strictly larger key, so the first maximal element wins. -/
def pyMaxByAux {α β : Type} [LinearOrder β] (f : α → β) (b : α) : List α → α
  | [] => b
  | x :: xs => pyMaxByAux f (if f b < f x then x else b) xs

/-- Python `min(xs, key=f)` accumulator: the first minimal element wins. -/
def pyMinByAux {α β : Type} [LinearOrder β] (f : α → β) (b : α) : List α → α
  | [] => b
  | x :: xs => pyMinByAux f (if f x < f b then x else b) xs

/-- List of eligible providers built in `_select_provider`:
`status == AVAILABLE and self._check_rate_limit(provider)`, iterating
the provider dict in insertion order. -/
def eligibleList (ps : AIProvider → ProviderInfo) (now : ℚ) : List AIProvider :=
  providerOrder.filter fun p =>
    decide ((ps p).status = ProviderStatus.AVAILABLE) && (check_rate_limit (ps p) now).2

/-- `_smart_selection` on a non-empty provider list `b :: l`
(Python `max` raises on an empty list; `_select_provider` never passes one). -/
def smart_selection (ps : AIProvider → ProviderInfo) (msg : String)
    (b : AIProvider) (l : List AIProvider) : AIProvider :=
  pyMaxByAux (calculate_score ps msg) b l

/-- `_select_provider`: empty eligible list falls back to `FALLBACK_LOCAL`;
otherwise dispatch on the configured strategy string, the final `else`
minimizing `priority`. -/
def select_provider (st : ManagerState) (msg : String) (now : ℚ) : AIProvider :=
  match eligibleList st.providers now with
  | [] => .fallback_local
  | a :: rest =>
      if st.routing_strategy = "smart" then
        smart_selection st.providers msg a rest
      else if st.routing_strategy = "cost_first" then
        pyMinByAux (fun p => (st.providers p).cost) a rest
      else if st.routing_strategy = "speed_first" then
        pyMinByAux (fun p => (st.providers p).latency) a rest
      else if st.routing_strategy = "quality_first" then
        pyMaxByAux (fun p => (st.providers p).quality) a rest
      else
        pyMinByAux (fun p => (st.providers p).priority) a rest

/-- Stable ascending insertion used to model Python `list.sort(key=...)`:
an element goes before the first resident with a strictly larger key, hence
after all residents with an equal key (stability). -/
def pyInsert {α : Type} (key : α → ℤ) (x : α) : List α → List α
  | [] => [x]
  | y :: ys => if key x < key y then x :: y :: ys else y :: pyInsert key x ys

/-- Python's stable ascending `list.sort(key=...)`, as a left fold of
stable insertions. -/
def pySortByKey {α : Type} (key : α → ℤ) (l : List α) : List α :=
  l.foldl (fun acc x => pyInsert key x acc) []

/-- The candidate list built in `_try_fallback_providers`: all providers other
than `exclude` whose status is AVAILABLE (note: no rate-limit check here),
sorted ascending by priority. -/
def fallback_candidates (ps : AIProvider → ProviderInfo) (exclude : AIProvider) :
    List AIProvider :=
  pySortByKey (fun p => (ps p).priority)
    (providerOrder.filter fun p =>
      decide (p ≠ exclude) && decide ((ps p).status = ProviderStatus.AVAILABLE))

/-- The `{response, confidence}` dict returned by a provider capability. -/
structure ProviderResult where
  response : String
  confidence : ℚ
deriving DecidableEq, Repr

/-- The four response templates of `_fallback_process`. -/
def fallback_templates (msg : String) : List String :=
  ["I understand you\x27re asking about \x27" ++ msg ++ "\x27. Let me help you with that.",
   "That\x27s an interesting question about \x27" ++ msg ++ "\x27. Here\x27s what I think...",
   "Regarding \x27" ++ msg ++ "\x27, I can provide some insights.",
   "I see you mentioned \x27" ++ msg ++ "\x27. Let me assist you."]

/-- `_fallback_process`: `random.choice` over the four templates (never
raises); `r` is the random draw. -/
def fallback_process (msg : String) (r : ℕ) : ProviderResult :=
  { response := (fallback_templates msg).getD (r % 4) "", confidence := 1/2 }

/-- `_process_with_provider`: dispatches to the provider capability and
attaches the measured wall-clock `processing_time` (`elapsed`).  The four
external capabilities are the opaque `oracle` (`none` = raised exception);
`FALLBACK_LOCAL` runs the total template responder. -/
def process_with_provider (oracle : AIProvider → Option ProviderResult) (r : ℕ)
    (elapsed : ℚ) (p : AIProvider) (msg : String) : Option (ProviderResult × ℚ) :=
  match p with
  | .fallback_local => some (fallback_process msg r, elapsed)
  | q => (oracle q).map (fun res => (res, elapsed))

/-- A result dict of `process_request` / `_try_fallback_providers`.  Each
`Option` field records whether the corresponding key is present in the
returned Python dict (`none` = key absent). -/
structure Outcome where
  response : String
  provider_used : Option String
  confidence : ℚ
  processing_time : Option ℚ
  cost_estimate : Option ℚ
  status : Option String
  fallback_used : Option Bool
  original_provider_failed : Option String
deriving DecidableEq, Repr

/-- The degraded dict returned when every fallback candidate fails. -/
def degraded_outcome (msg : String) : Outcome :=
  { response := "I apologize, but I\x27m experiencing technical difficulties. I understand you said: \x27"
      ++ msg ++ "\x27. Please try again in a moment.",
    provider_used := some "emergency_fallback",
    confidence := 1/10,
    processing_time := none,
    cost_estimate := none,
    status := some "degraded",
    fallback_used := none,
    original_provider_failed := none }

/-- Loop body of `_try_fallback_providers` over a candidate list: returns the
outcome together with the list of providers actually dispatched. -/
def try_fallback_go (oracle : AIProvider → Option ProviderResult) (r : ℕ) (elapsed : ℚ)
    (msg : String) (exclude : AIProvider) : List AIProvider → Outcome × List AIProvider
  | [] => (degraded_outcome msg, [])
  | p :: rest =>
      match process_with_provider oracle r elapsed p msg with
      | some (res, t) =>
          ({ response := res.response,
             provider_used := none,
             confidence := res.confidence,
             processing_time := some t,
             cost_estimate := none,
             status := none,
             fallback_used := some true,
             original_provider_failed := some exclude.value }, [p])
      | none =>
          let rec' := try_fallback_go oracle r elapsed msg exclude rest
          (rec'.1, p :: rec'.2)

/-- `_try_fallback_providers` on a provider table. -/
def try_fallback (oracle : AIProvider → Option ProviderResult) (r : ℕ) (elapsed : ℚ)
    (ps : AIProvider → ProviderInfo) (msg : String) (exclude : AIProvider) :
    Outcome × List AIProvider :=
  try_fallback_go oracle r elapsed msg exclude (fallback_candidates ps exclude)

/-- Rate-counter reset side effect of the eligibility comprehension in
`_select_provider`: `_check_rate_limit` runs (and may reset the window
counter) exactly for providers whose status is AVAILABLE (Python `and`
short-circuits). -/
def resetStep (info : ProviderInfo) (now : ℚ) : ProviderInfo :=
  if info.status = .AVAILABLE then (check_rate_limit info now).1 else info

/-- Provider table after the eligibility scan's reset side effects. -/
def afterReset (ps : AIProvider → ProviderInfo) (now : ℚ) : AIProvider → ProviderInfo :=
  fun p => resetStep (ps p) now

/-- Point update of the provider table: `_update_provider_stats(sel, success)`. -/
def recordAt (ps : AIProvider → ProviderInfo) (sel : AIProvider) (success : Bool)
    (now : ℚ) : AIProvider → ProviderInfo :=
  fun p => if p = sel then update_provider_stats (ps p) success now else ps p

/-- `process_request`: returns the outcome (or the re-raised exception when
`fallback_enabled` is false), the manager state after all side effects, and
the trace of providers dispatched (first-selected followed by fallback
attempts). -/
def process_request (oracle : AIProvider → Option ProviderResult) (r : ℕ)
    (elapsed now : ℚ) (st : ManagerState) (msg : String) :
    Except String Outcome × ManagerState × List AIProvider :=
  let sel := select_provider st msg now
  let ps1 := afterReset st.providers now
  match process_with_provider oracle r elapsed sel msg with
  | some (res, t) =>
      let ps2 := recordAt ps1 sel true now
      (.ok { response := res.response,
             provider_used := some sel.value,
             confidence := res.confidence,
             processing_time := some t,
             cost_estimate := some (ps2 sel).cost,
             status := some "success",
             fallback_used := none,
             original_provider_failed := none },
       { st with providers := ps2 }, [sel])
  | none =>
      let ps2 := recordAt ps1 sel false now
      if st.fallback_enabled then
        let fb := try_fallback oracle r elapsed ps2 msg sel
        (.ok fb.1, { st with providers := ps2 }, sel :: fb.2)
      else
        (.error "provider failure", { st with providers := ps2 }, [sel])

/-- `set_routing_strategy`: validates against the hard-coded list (note:
`"priority_first"` is absent) and raises `ValueError` otherwise. -/
def valid_strategies : List String :=
  ["smart", "cost_first", "speed_first", "quality_first"]

/-- `set_routing_strategy` as a function: `.error` models the raised
`ValueError`, in which case the state is untouched. -/
def set_routing_strategy (st : ManagerState) (strategy : String) :
    Except String ManagerState :=
  if strategy ∈ valid_strategies then
    .ok { st with routing_strategy := strategy }
  else
    .error "Invalid strategy. Must be one of: smart, cost_first, speed_first, quality_first"

/-- External events that touch the manager's mutable state during the
process lifetime: requests (via `process_request`) and strategy changes
(via `set_routing_strategy`; the HTTP layer catches its `ValueError`). -/
inductive ManagerEvent where
  | request (oracle : AIProvider → Option ProviderResult) (r : ℕ) (elapsed now : ℚ) (msg : String)
  | setStrategy (s : String)

/-- One event's effect on the manager state. -/
def stepEvent (st : ManagerState) : ManagerEvent → ManagerState
  | .request oracle r elapsed now msg => (process_request oracle r elapsed now st msg).2.1
  | .setStrategy s =>
      match set_routing_strategy st s with
      | .ok st' => st'
      | .error _ => st

/-- Manager state reached from `__init__` by a sequence of events. -/
def runEvents (es : List ManagerEvent) : ManagerState :=
  es.foldl stepEvent initState

/-- A conversation-history entry appended by `IRISCore.process_message`
(`kind` is the dict's `"type"` key; assistant turns carry the two extras). -/
structure ConversationTurn where
  timestamp : String
  user_id : String
  message : String
  kind : String
  provider : Option String
  confidence : Option ℚ
deriving DecidableEq, Repr

/-- Python tail slice `xs[-limit:]` at a natural `limit`: `-0 == 0`, so
`limit = 0` yields the whole list; otherwise the last `limit` elements
(clamped to the length). -/
def pyTailSlice {α : Type} (xs : List α) (limit : ℕ) : List α :=
  if limit = 0 then xs else xs.drop (xs.length - limit)

/-- `IRISCore.get_conversation_history`: filter the shared log by `user_id`,
then take `user_history[-limit:]`. -/
def get_conversation_history (history : List ConversationTurn) (user_id : String)
    (limit : ℕ) : List ConversationTurn :=
  pyTailSlice (history.filter fun m => m.user_id == user_id) limit

/-- Structure of a Python `max(key=f)` run: the winner splits `b :: l` into a
strict-smaller prefix and a no-larger suffix (so the first maximal element
wins). -/
theorem pyMaxByAux_decomp {α β : Type} [LinearOrder β] (f : α → β) :
    ∀ (l : List α) (b : α), ∃ l₁ l₂, b :: l = l₁ ++ pyMaxByAux f b l :: l₂ ∧
      (∀ x ∈ l₁, f x < f (pyMaxByAux f b l)) ∧ (∀ x ∈ l₂, f x ≤ f (pyMaxByAux f b l))
  | [], b => ⟨[], [], rfl, by simp, by simp⟩
  | x :: xs, b => by
    rcases lt_or_le (f b) (f x) with h | h
    · have hb : pyMaxByAux f b (x :: xs) = pyMaxByAux f x xs := by
        rw [pyMaxByAux, if_pos h]
      obtain ⟨l₁, l₂, hsplit, hlt, hle⟩ := pyMaxByAux_decomp f xs x
      rw [hb]
      refine ⟨b :: l₁, l₂, by simp [← hsplit], ?_, hle⟩
      intro y hy
      rcases List.mem_cons.1 hy with rfl | hy
      · rcases l₁ with _ | ⟨z, t⟩
        · simp only [List.nil_append, List.cons.injEq] at hsplit
          exact hsplit.1 ▸ h
        · simp only [List.cons_append, List.cons.injEq] at hsplit
          obtain ⟨rfl, -⟩ := hsplit
          exact lt_trans h (hlt x (by simp))
      · exact hlt y hy
    · have hb : pyMaxByAux f b (x :: xs) = pyMaxByAux f b xs := by
        rw [pyMaxByAux, if_neg (not_lt.2 h)]
      obtain ⟨l₁, l₂, hsplit, hlt, hle⟩ := pyMaxByAux_decomp f xs b
      rw [hb]
      rcases l₁ with _ | ⟨z, t⟩
      · simp only [List.nil_append, List.cons.injEq] at hsplit
        refine ⟨[], x :: xs, congrArg (fun q => q :: x :: xs) hsplit.1, by simp, ?_⟩
        intro y hy
        rcases List.mem_cons.1 hy with rfl | hy
        · exact hsplit.1 ▸ h
        · exact hle y (hsplit.2 ▸ hy)
      · simp only [List.cons_append, List.cons.injEq] at hsplit
        obtain ⟨rfl, hxs⟩ := hsplit
        refine ⟨b :: x :: t, l₂, congrArg (fun l => b :: x :: l) hxs, ?_, hle⟩
        intro y hy
        have hblt : f b < f (pyMaxByAux f b xs) := hlt b (by simp)
        rcases List.mem_cons.1 hy with rfl | hy
        · exact hblt
        rcases List.mem_cons.1 hy with rfl | hy
        · exact lt_of_le_of_lt h hblt
        · exact hlt y (by simp [hy])

/-- The Python `max` winner is an element of the scanned list. -/
theorem pyMaxByAux_mem {α β : Type} [LinearOrder β] (f : α → β) (l : List α) (b : α) :
    pyMaxByAux f b l ∈ b :: l := by
  obtain ⟨l₁, l₂, hsplit, -, -⟩ := pyMaxByAux_decomp f l b
  rw [hsplit]
  simp

/-- The Python `max` winner has a maximal key. -/
theorem pyMaxByAux_le {α β : Type} [LinearOrder β] (f : α → β) (l : List α) (b : α) :
    ∀ x ∈ b :: l, f x ≤ f (pyMaxByAux f b l) := by
  obtain ⟨l₁, l₂, hsplit, hlt, hle⟩ := pyMaxByAux_decomp f l b
  intro x hx
  rw [hsplit] at hx
  rcases List.mem_append.1 hx with hx | hx
  · exact le_of_lt (hlt x hx)
  · rcases List.mem_cons.1 hx with rfl | hx
    · exact le_rfl
    · exact hle x hx

/-- Against any strict order `g` that is `Pairwise` increasing along the
scanned list, the Python `max` winner is `g`-minimal among key ties (it is
the first maximal element, and later ties sit strictly `g`-above it). -/
theorem pyMaxByAux_tie {α β : Type} [LinearOrder β] (f : α → β) (g : α → ℤ)
    (l : List α) (b : α)
    (hpw : List.Pairwise (fun a c => g a < g c) (b :: l)) :
    ∀ x ∈ b :: l, f x = f (pyMaxByAux f b l) → g (pyMaxByAux f b l) ≤ g x := by
  obtain ⟨l₁, l₂, hsplit, hlt, -⟩ := pyMaxByAux_decomp f l b
  intro x hx hfx
  rw [hsplit] at hx hpw
  rcases List.mem_append.1 hx with hx | hx
  · exact absurd (hfx ▸ hlt x hx) (lt_irrefl _)
  · rcases List.mem_cons.1 hx with rfl | hx
    · exact le_rfl
    · exact le_of_lt ((List.pairwise_cons.1 (List.pairwise_append.1 hpw).2.1).1 x hx)

/-- With the registry's fixed priorities, `providerOrder` lists providers in
strictly ascending priority. -/
theorem providerOrder_pairwise (ps : AIProvider → ProviderInfo)
    (hprio : ∀ p, (ps p).priority = (initProviders p).priority) :
    List.Pairwise (fun a c => (ps a).priority < (ps c).priority) providerOrder := by
  have base : List.Pairwise
      (fun a c => (initProviders a).priority < (initProviders c).priority) providerOrder := by
    decide
  exact base.imp (fun hh => by rw [hprio, hprio]; exact hh)

/-- The smart score depends on the message only through its length. -/
theorem calculate_score_congr (ps : AIProvider → ProviderInfo) {m1 m2 : String}
    (h : m1.length = m2.length) :
    calculate_score ps m1 = calculate_score ps m2 := by
  funext p
  simp only [calculate_score, h]

/-- The smart score exactly as the specification words it:
`quality*0.4 + (6 - priority)*0.1 - latency*0.1 - cost*10 - errorCount*0.05`,
`+0.2` if local, `+quality*0.2` if the message exceeds 500 characters —
with no `max(0, ·)` clamp (compare `calculate_score`, translated from the
code, which clamps). -/
def specRawScore (ps : AIProvider → ProviderInfo) (msg : String) (p : AIProvider) : ℚ :=
  let info := ps p
  let score := info.quality * (4/10) + ((6 - info.priority : ℤ) : ℚ) * (1/10)
    - info.latency * (1/10) - info.cost * 10 - (info.error_count : ℚ) * (5/100)
  let score := if is_local_provider p then score + 2/10 else score
  if msg.length > 500 then score + info.quality * (2/10) else score

/-- Provider table falsifying C1 as stated: both eligible providers carry
enough accumulated errors that their raw scores are negative; the code clamps
both to 0 and Python `max` keeps the first (OLLAMA_LOCAL), while the spec's
formula is maximized by HUGGINGFACE_CLOUD. -/
def cexC1 : AIProvider → ProviderInfo
  | .ollama_local => { initProviders .ollama_local with error_count := 19 }
  | .huggingface_local => { initProviders .huggingface_local with status := .ERROR, error_count := 3 }
  | .huggingface_cloud => { initProviders .huggingface_cloud with error_count := 11, last_used := 100 }
  | .openai_cloud => { initProviders .openai_cloud with status := .ERROR, error_count := 3 }
  | .fallback_local => { initProviders .fallback_local with status := .ERROR, error_count := 3 }

/-- Manager state around `cexC1`, smart strategy active. -/
def cexC1State : ManagerState :=
  { providers := cexC1, routing_strategy := "smart", fallback_enabled := true }

/-- C1 counterexample: at `cexC1State` (message `"hi"`, time 100) the eligible
set is `[OLLAMA_LOCAL, HUGGINGFACE_CLOUD]`, the code selects OLLAMA_LOCAL,
yet OLLAMA_LOCAL's spec score is strictly below HUGGINGFACE_CLOUD's — the
selected provider does not maximize the claimed score formula. -/
theorem C1_counterexample :
    eligibleList cexC1 100 = [.ollama_local, .huggingface_cloud] ∧
    select_provider cexC1State "hi" 100 = .ollama_local ∧
    specRawScore cexC1 "hi" .ollama_local < specRawScore cexC1 "hi" .huggingface_cloud := by
  refine ⟨?_, ?_, ?_⟩
  · norm_num +decide [eligibleList, providerOrder, List.filter, cexC1, initProviders,
      check_rate_limit]
  · norm_num +decide [select_provider, eligibleList, providerOrder, List.filter, cexC1State,
      cexC1, initProviders, check_rate_limit, smart_selection, pyMaxByAux, calculate_score,
      is_local_provider, String.length]
  · norm_num +decide [specRawScore, cexC1, initProviders, is_local_provider, String.length]

/-- C1 (amended): under the smart strategy, for every non-empty eligible set
(with the registry's fixed priorities) and message, the selected provider
maximizes the CLAMPED score `max(0, quality*0.4 + (6-priority)*0.1 -
latency*0.1 - cost*10 - errorCount*0.05 [+0.2 local] [+quality*0.2 long])`,
ties broken by lowest priority; selection is deterministic given identical
provider states and message length. -/
theorem C1_smart_selection_amended (st : ManagerState) (msg : String) (now : ℚ)
    (a : AIProvider) (rest : List AIProvider)
    (hs : st.routing_strategy = "smart")
    (helig : eligibleList st.providers now = a :: rest)
    (hprio : ∀ p, (st.providers p).priority = (initProviders p).priority) :
    select_provider st msg now ∈ eligibleList st.providers now ∧
    (∀ q ∈ eligibleList st.providers now,
        calculate_score st.providers msg q ≤
          calculate_score st.providers msg (select_provider st msg now)) ∧
    (∀ q ∈ eligibleList st.providers now,
        calculate_score st.providers msg q =
          calculate_score st.providers msg (select_provider st msg now) →
        (st.providers (select_provider st msg now)).priority ≤ (st.providers q).priority) ∧
    (∀ msg2 : String, msg2.length = msg.length →
        select_provider st msg2 now = select_provider st msg now) := by
  have hsel : ∀ m : String, select_provider st m now = smart_selection st.providers m a rest := by
    intro m
    unfold select_provider
    rw [helig]
    simp [hs]
  have hpw : List.Pairwise (fun p q => (st.providers p).priority < (st.providers q).priority)
      (a :: rest) := by
    rw [← helig]
    exact List.Pairwise.filter _ (providerOrder_pairwise st.providers hprio)
  refine ⟨?_, ?_, ?_, ?_⟩
  · rw [hsel msg, helig]
    exact pyMaxByAux_mem _ rest a
  · intro q hq
    rw [hsel msg]
    rw [helig] at hq
    exact pyMaxByAux_le (calculate_score st.providers msg) rest a q hq
  · intro q hq heq
    rw [hsel msg]
    rw [helig] at hq
    rw [hsel msg] at heq
    exact pyMaxByAux_tie (calculate_score st.providers msg)
      (fun p => (st.providers p).priority) rest a hpw q hq heq
  · intro msg2 hlen
    rw [hsel msg2, hsel msg]
    unfold smart_selection
    rw [calculate_score_congr st.providers hlen]

/-- C1 witness: the amended theorem applied to the initial state, message
`"hello"`, time 0, whose eligible set is all five providers. -/
theorem C1_witness :
    select_provider initState "hello" 0 ∈ eligibleList initState.providers 0 :=
  (C1_smart_selection_amended initState "hello" 0 .ollama_local
    [.huggingface_local, .huggingface_cloud, .openai_cloud, .fallback_local]
    rfl
    (by norm_num +decide [eligibleList, providerOrder, List.filter, initState, initProviders,
      check_rate_limit])
    (fun p => rfl)).1

/-- C3 counterexample: the claim admits `"priority_first"` as a valid strategy
name, but `set_routing_strategy` raises `ValueError` on it (its hard-coded
list has only four entries). -/
theorem C3_counterexample :
    set_routing_strategy initState "priority_first" =
      .error "Invalid strategy. Must be one of: smart, cost_first, speed_first, quality_first" := by
  simp +decide [set_routing_strategy, valid_strategies]

/-- C3 (amended): `set_routing_strategy(name)` succeeds exactly when `name` is
one of the FOUR validated strategies {smart, cost_first, speed_first,
quality_first}; any other name — including `"priority_first"` — raises
`ValueError` and leaves the active routing strategy (and all other manager
state) unchanged, so a subsequent select still uses the prior strategy. -/
theorem C3_set_routing_strategy_amended (st : ManagerState) (name : String) :
    (name ∈ valid_strategies →
      set_routing_strategy st name = .ok { st with routing_strategy := name }) ∧
    (name ∉ valid_strategies →
      (∃ e, set_routing_strategy st name = .error e) ∧
      stepEvent st (.setStrategy name) = st) := by
  constructor
  · intro h
    simp [set_routing_strategy, h]
  · intro h
    refine ⟨⟨"Invalid strategy. Must be one of: smart, cost_first, speed_first, quality_first",
      by simp [set_routing_strategy, h]⟩, ?_⟩
    simp [stepEvent, set_routing_strategy, h]

/-- C3 witness: `"cost_first"` is accepted and installed; `"fastest"` is
rejected with the state untouched. -/
theorem C3_witness :
    set_routing_strategy initState "cost_first" =
      .ok { initState with routing_strategy := "cost_first" } ∧
    stepEvent initState (.setStrategy "fastest") = initState :=
  ⟨(C3_set_routing_strategy_amended initState "cost_first").1
      (by simp +decide [valid_strategies]),
   ((C3_set_routing_strategy_amended initState "fastest").2
      (by simp +decide [valid_strategies])).2⟩

/-- C10: requesting the recent conversation history with `limit = 0` returns
the user's entire turn history in insertion order (Python `[-0:]` is the
whole list), not an empty sequence. -/
theorem C10_history_limit_zero (history : List ConversationTurn) (uid : String) :
    get_conversation_history history uid 0 =
      history.filter (fun m => m.user_id == uid) := by
  simp [get_conversation_history, pyTailSlice]

/-- Effect of one recorded outcome on `error_count`: success decrements with a
floor of 0, failure increments. -/
theorem update_stats_error_count (info : ProviderInfo) (now : ℚ) :
    (update_provider_stats info true now).error_count = max 0 (info.error_count - 1) ∧
    (update_provider_stats info false now).error_count = info.error_count + 1 := by
  rcases info with ⟨s, pr, c, lat, q, lu, rl, ec⟩
  cases rl <;> simp [update_provider_stats]

/-- Effect of one recorded outcome on `status`: success clears ERROR back to
AVAILABLE (and otherwise keeps the status); failure forces ERROR exactly when
the incremented count reaches the threshold 3. -/
theorem update_stats_status (info : ProviderInfo) (now : ℚ) :
    (update_provider_stats info true now).status =
      (if info.status = .ERROR then .AVAILABLE else info.status) ∧
    (update_provider_stats info false now).status =
      (if info.error_count + 1 ≥ 3 then .ERROR else info.status) := by
  rcases info with ⟨s, pr, c, lat, q, lu, rl, ec⟩
  cases rl <;> simp [update_provider_stats]

/-- One recorded outcome keeps `error_count` nonnegative. -/
theorem update_stats_ec_nonneg (info : ProviderInfo) (b : Bool) (now : ℚ)
    (h : 0 ≤ info.error_count) : 0 ≤ (update_provider_stats info b now).error_count := by
  cases b
  · rw [(update_stats_error_count info now).2]
    omega
  · rw [(update_stats_error_count info now).1]
    exact le_max_left 0 _

/-- Providers whose status is not AVAILABLE never appear in the eligible list. -/
theorem not_available_not_eligible (ps : AIProvider → ProviderInfo) (now : ℚ)
    (p : AIProvider) (h : (ps p).status ≠ .AVAILABLE) :
    p ∉ eligibleList ps now := by
  intro hmem
  rcases List.mem_filter.1 hmem with ⟨-, hpred⟩
  rcases Bool.and_eq_true_iff.1 hpred with ⟨hstat, -⟩
  exact h (of_decide_eq_true hstat)

/-- C7: over every sequence of recorded outcomes `error_count` stays
nonnegative; a recorded success decrements it by 1 with floor 0 and restores
ERROR to AVAILABLE; a failure recorded at `error_count ≥ 2` (so the count
reaches the threshold 3) forces status ERROR; and an ERROR provider is
excluded from the eligible set used by selection. -/
theorem C7_error_count_invariants (info : ProviderInfo) (now : ℚ)
    (outcomes : List (Bool × ℚ)) (h0 : 0 ≤ info.error_count) :
    0 ≤ (outcomes.foldl (fun i o => update_provider_stats i o.1 o.2) info).error_count ∧
    (update_provider_stats info true now).error_count = max 0 (info.error_count - 1) ∧
    (info.status = .ERROR → (update_provider_stats info true now).status = .AVAILABLE) ∧
    (2 ≤ info.error_count → (update_provider_stats info false now).status = .ERROR) ∧
    (∀ ps : AIProvider → ProviderInfo, ∀ t : ℚ, ∀ p : AIProvider,
        (ps p).status = .ERROR → p ∉ eligibleList ps t) := by
  refine ⟨?_, (update_stats_error_count info now).1, ?_, ?_, ?_⟩
  · induction outcomes generalizing info with
    | nil => exact h0
    | cons o os ih =>
        exact ih (update_provider_stats info o.1 o.2)
          (update_stats_ec_nonneg info o.1 o.2 h0)
  · intro h
    rw [(update_stats_status info now).1, if_pos h]
  · intro h
    rw [(update_stats_status info now).2, if_pos (by omega)]
  · intro ps t p h
    exact not_available_not_eligible ps t p (by rw [h]; exact fun hc => nomatch hc)

/-- C7 witness: the invariants applied to OLLAMA_LOCAL's initial state after
the outcome sequence fail, fail, fail. -/
theorem C7_witness :
    0 ≤ (([(false, (1:ℚ)), (false, 2), (false, 3)]).foldl
        (fun i o => update_provider_stats i o.1 o.2) (initProviders .ollama_local)).error_count :=
  (C7_error_count_invariants (initProviders .ollama_local) 4
    [(false, 1), (false, 2), (false, 3)]
    (by norm_num [initProviders])).1

/-- Window length in seconds per window kind, as hard-coded in
`_check_rate_limit`: 3600 for per-hour, 60 for per-minute. -/
def windowLen : WindowKind → ℚ
  | .per_hour => 3600
  | .per_minute => 60

/-- Characterization of `_check_rate_limit` with a configured limit: reset the
counter when the window has elapsed since `last_used`, then compare. -/
theorem check_rate_limit_some (info : ProviderInfo) (now : ℚ) (rl : RateLimit)
    (h : info.rate_limit = some rl) :
    check_rate_limit info now =
      (if now - info.last_used > windowLen rl.window then
        ({ info with rate_limit := some { rl with current := 0 } },
          decide (0 < rl.max_requests))
      else (info, decide (rl.current < rl.max_requests))) := by
  rcases info with ⟨s, pr, c, lat, q, lu, rlf, ec⟩
  simp only at h
  subst h
  rcases rl with ⟨mx, w, cur⟩
  by_cases hw : now - lu > windowLen w
  · rw [if_pos hw]
    cases w <;>
      simp only [windowLen] at hw <;>
      simp [check_rate_limit, hw]
  · rw [if_neg hw]
    cases w <;>
      simp only [windowLen] at hw <;>
      simp [check_rate_limit, hw]

/-- C8: with a configured limit the eligibility check first resets the counter
to 0 when the elapsed time since `last_used` exceeds the window length
(3600 s per-hour, 60 s per-minute) and then returns `counter < maxRequests`
(so after the window elapses it passes again whenever `maxRequests > 0`);
within the window a saturated counter makes it return false; each recorded
dispatch outcome increments the counter by one; a provider with no configured
limit always passes unchanged. -/
theorem C8_rate_limit (info : ProviderInfo) (now : ℚ) (rl : RateLimit) (b : Bool) :
    (info.rate_limit = none → check_rate_limit info now = (info, true)) ∧
    (info.rate_limit = some rl → now - info.last_used > windowLen rl.window →
        check_rate_limit info now =
          ({ info with rate_limit := some { rl with current := 0 } },
            decide (0 < rl.max_requests))) ∧
    (info.rate_limit = some rl → ¬ now - info.last_used > windowLen rl.window →
        check_rate_limit info now = (info, decide (rl.current < rl.max_requests))) ∧
    (info.rate_limit = some rl → rl.max_requests ≤ rl.current →
        ¬ now - info.last_used > windowLen rl.window →
        (check_rate_limit info now).2 = false) ∧
    (info.rate_limit = some rl →
        (update_provider_stats info b now).rate_limit =
          some { rl with current := rl.current + 1 }) := by
  refine ⟨?_, ?_, ?_, ?_, ?_⟩
  · intro h
    rcases info with ⟨s, pr, c, lat, q, lu, rlf, ec⟩
    simp only at h
    subst h
    rfl
  · intro h hw
    rw [check_rate_limit_some info now rl h, if_pos hw]
  · intro h hw
    rw [check_rate_limit_some info now rl h, if_neg hw]
  · intro h hcur hw
    rw [check_rate_limit_some info now rl h, if_neg hw]
    exact decide_eq_false (not_lt.2 hcur)
  · intro h
    rcases info with ⟨s, pr, c, lat, q, lu, rlf, ec⟩
    simp only at h
    subst h
    cases b <;> simp [update_provider_stats]

/-- C8 witness: OPENAI_CLOUD's per-minute limit saturated at 60 within the
window fails the check. -/
theorem C8_witness :
    (check_rate_limit
      { initProviders .openai_cloud with
          last_used := 100,
          rate_limit := some { max_requests := 60, window := .per_minute, current := 60 } }
      110).2 = false :=
  (C8_rate_limit
    { initProviders .openai_cloud with
        last_used := 100,
        rate_limit := some { max_requests := 60, window := .per_minute, current := 60 } }
    110 { max_requests := 60, window := .per_minute, current := 60 } true).2.2.2.1
    rfl (by norm_num) (by norm_num [windowLen, initProviders])

/-- Membership through a stable insertion. -/
theorem mem_pyInsert {α : Type} (key : α → ℤ) (x a : α) :
    ∀ l : List α, a ∈ pyInsert key x l ↔ a = x ∨ a ∈ l
  | [] => by simp [pyInsert]
  | y :: ys => by
    by_cases h : key x < key y
    · simp [pyInsert, h]
    · simp [pyInsert, h, mem_pyInsert key x a ys]
      tauto

/-- Membership through the modelled Python sort. -/
theorem mem_pySortByKey {α : Type} (key : α → ℤ) (l : List α) (a : α) :
    a ∈ pySortByKey key l ↔ a ∈ l := by
  suffices h : ∀ (l acc : List α),
      (a ∈ l.foldl (fun acc x => pyInsert key x acc) acc ↔ a ∈ acc ∨ a ∈ l) by
    rw [pySortByKey, h l []]
    simp
  intro l
  induction l with
  | nil => simp
  | cons x xs ih =>
      intro acc
      rw [List.foldl_cons, ih (pyInsert key x acc), mem_pyInsert key x a acc]
      simp
      tauto

/-- Stable insertion preserves ascending key order. -/
theorem pairwise_pyInsert {α : Type} (key : α → ℤ) (x : α) :
    ∀ l : List α, l.Pairwise (fun a b => key a ≤ key b) →
      (pyInsert key x l).Pairwise (fun a b => key a ≤ key b)
  | [], _ => by simp [pyInsert]
  | y :: ys, hp => by
    rcases List.pairwise_cons.1 hp with ⟨hy, hys⟩
    by_cases h : key x < key y
    · rw [pyInsert, if_pos h]
      refine List.pairwise_cons.2 ⟨?_, hp⟩
      intro b hb
      rcases List.mem_cons.1 hb with rfl | hb
      · exact le_of_lt h
      · exact le_trans (le_of_lt h) (hy b hb)
    · rw [pyInsert, if_neg h]
      refine List.pairwise_cons.2 ⟨?_, pairwise_pyInsert key x ys hys⟩
      intro b hb
      rcases (mem_pyInsert key x b ys).1 hb with rfl | hb
      · exact not_lt.1 h
      · exact hy b hb

/-- The modelled Python sort is ascending in the key. -/
theorem pairwise_pySortByKey {α : Type} (key : α → ℤ) (l : List α) :
    (pySortByKey key l).Pairwise (fun a b => key a ≤ key b) := by
  suffices h : ∀ (l acc : List α), acc.Pairwise (fun a b => key a ≤ key b) →
      (l.foldl (fun acc x => pyInsert key x acc) acc).Pairwise (fun a b => key a ≤ key b) by
    exact h l [] (by simp)
  intro l
  induction l with
  | nil => exact fun acc h => h
  | cons x xs ih =>
      intro acc hacc
      exact ih (pyInsert key x acc) (pairwise_pyInsert key x acc hacc)

/-- The fallback candidate set is exactly the AVAILABLE providers other than
the excluded one (the rate limit is not consulted). -/
theorem mem_fallback_candidates (ps : AIProvider → ProviderInfo) (exclude p : AIProvider) :
    p ∈ fallback_candidates ps exclude ↔
      (p ≠ exclude ∧ (ps p).status = .AVAILABLE) := by
  rw [fallback_candidates, mem_pySortByKey, List.mem_filter]
  have hp : p ∈ providerOrder := by cases p <;> simp [providerOrder]
  simp [hp]

/-- The fallback loop dispatches the failing prefix of the candidate list plus
the first succeeding candidate, if any. -/
theorem try_fallback_go_attempts (oracle : AIProvider → Option ProviderResult) (r : ℕ)
    (elapsed : ℚ) (msg : String) (exclude : AIProvider) :
    ∀ cands : List AIProvider,
      (try_fallback_go oracle r elapsed msg exclude cands).2 =
        cands.takeWhile (fun p => (process_with_provider oracle r elapsed p msg).isNone) ++
          (cands.dropWhile
            (fun p => (process_with_provider oracle r elapsed p msg).isNone)).take 1
  | [] => by simp [try_fallback_go]
  | p :: rest => by
    rcases hd : process_with_provider oracle r elapsed p msg with _ | ⟨res, t⟩
    · rw [try_fallback_go]
      rw [hd]
      simp [hd]
      exact try_fallback_go_attempts oracle r elapsed msg exclude rest
    · rw [try_fallback_go]
      rw [hd]
      simp [List.takeWhile_cons, List.dropWhile_cons, hd]

/-- If some candidate succeeds, the fallback loop's outcome is marked
`fallback_used = True` with `original_provider_failed` set to the excluded
provider. -/
theorem try_fallback_go_success (oracle : AIProvider → Option ProviderResult) (r : ℕ)
    (elapsed : ℚ) (msg : String) (exclude : AIProvider) :
    ∀ cands : List AIProvider,
      (∃ p ∈ cands, (process_with_provider oracle r elapsed p msg).isSome) →
      (try_fallback_go oracle r elapsed msg exclude cands).1.fallback_used = some true ∧
      (try_fallback_go oracle r elapsed msg exclude cands).1.original_provider_failed =
        some exclude.value
  | [], h => by simp at h
  | p :: rest, h => by
    rcases hd : process_with_provider oracle r elapsed p msg with _ | ⟨res, t⟩
    · rw [try_fallback_go]
      rw [hd]
      refine try_fallback_go_success oracle r elapsed msg exclude rest ?_
      rcases h with ⟨q, hq, hqs⟩
      rcases List.mem_cons.1 hq with rfl | hq
      · rw [hd] at hqs
        simp at hqs
      · exact ⟨q, hq, hqs⟩
    · rw [try_fallback_go]
      rw [hd]
      exact ⟨rfl, rfl⟩

/-- If every candidate fails, the fallback loop returns the degraded outcome
after dispatching all candidates. -/
theorem try_fallback_go_all_fail (oracle : AIProvider → Option ProviderResult) (r : ℕ)
    (elapsed : ℚ) (msg : String) (exclude : AIProvider) :
    ∀ cands : List AIProvider,
      (∀ p ∈ cands, process_with_provider oracle r elapsed p msg = none) →
      try_fallback_go oracle r elapsed msg exclude cands = (degraded_outcome msg, cands)
  | [], _ => by simp [try_fallback_go]
  | p :: rest, h => by
    have hd : process_with_provider oracle r elapsed p msg = none := h p (by simp)
    rw [try_fallback_go]
    rw [hd]
    rw [try_fallback_go_all_fail oracle r elapsed msg exclude rest
      (fun q hq => h q (by simp [hq]))]

/-- Shape of `process_request`'s side effects: the final provider table is the
post-reset table with the selected provider's stats recorded exactly once
(success matching the dispatch result), the configuration is untouched, and
the dispatch trace starts with the selected provider. -/
theorem process_request_effects (oracle : AIProvider → Option ProviderResult) (r : ℕ)
    (elapsed now : ℚ) (st : ManagerState) (msg : String) :
    (process_request oracle r elapsed now st msg).2.1.providers =
      recordAt (afterReset st.providers now) (select_provider st msg now)
        ((process_with_provider oracle r elapsed (select_provider st msg now) msg).isSome)
        now ∧
    (process_request oracle r elapsed now st msg).2.1.routing_strategy =
      st.routing_strategy ∧
    (process_request oracle r elapsed now st msg).2.1.fallback_enabled =
      st.fallback_enabled ∧
    (process_request oracle r elapsed now st msg).2.2.head? =
      some (select_provider st msg now) := by
  unfold process_request
  rcases hd : process_with_provider oracle r elapsed (select_provider st msg now) msg
    with _ | pr
  · by_cases hfb : st.fallback_enabled <;> simp [hd, hfb]
  · simp [hd]

/-- Capability oracle for the fallback scenario: only HUGGINGFACE_LOCAL
responds; every other external capability raises. -/
def oracleHFLocalOnly : AIProvider → Option ProviderResult
  | .huggingface_local => some { response := "hf-local reply", confidence := 4/5 }
  | _ => none

/-- Capability oracle where every external capability responds. -/
def oracleAllOk : AIProvider → Option ProviderResult
  | _ => some { response := "direct reply", confidence := 4/5 }

/-- C2: the outcome dicts do NOT all carry the five contract fields.  On the
fallback-success path (OLLAMA_LOCAL raises, HUGGINGFACE_LOCAL succeeds) the
returned dict has no `provider_used` key — the very key the caller
`IRISCore.process_message` reads unconditionally — and on the direct-success
path the dict has no `fallback_used` key. -/
theorem C2_missing_outcome_fields :
    (process_request oracleHFLocalOnly 0 1 100 initState "hello").1 =
      .ok { response := "hf-local reply", provider_used := none, confidence := 4/5,
            processing_time := some 1, cost_estimate := none, status := none,
            fallback_used := some true, original_provider_failed := some "ollama_local" } ∧
    (process_request oracleAllOk 0 1 100 initState "hello").1 =
      .ok { response := "direct reply", provider_used := some "ollama_local",
            confidence := 4/5, processing_time := some 1, cost_estimate := some 0,
            status := some "success", fallback_used := none,
            original_provider_failed := none } := by
  constructor <;>
  norm_num +decide [process_request, select_provider, eligibleList, providerOrder, List.filter,
    initState, initProviders, check_rate_limit, smart_selection, pyMaxByAux, calculate_score,
    is_local_provider, String.length, process_with_provider, oracleHFLocalOnly, oracleAllOk,
    afterReset, resetStep, recordAt, update_provider_stats, try_fallback, fallback_candidates,
    pySortByKey, pyInsert, List.foldl, try_fallback_go, AIProvider.value]

/-- C4 counterexample: HUGGINGFACE_LOCAL is dispatched during fallback (it is
in the trace and produced the response) yet its stats are never recorded: its
`last_used` stays 0 while the first-selected OLLAMA_LOCAL was stamped to 100. -/
theorem C4_counterexample :
    (process_request oracleHFLocalOnly 0 1 100 initState "hello").2.2 =
      [.ollama_local, .huggingface_local] ∧
    ((process_request oracleHFLocalOnly 0 1 100 initState "hello").2.1.providers
        .huggingface_local).last_used = 0 ∧
    ((process_request oracleHFLocalOnly 0 1 100 initState "hello").2.1.providers
        .ollama_local).last_used = 100 := by
  refine ⟨?_, ?_, ?_⟩ <;>
  norm_num +decide [process_request, select_provider, eligibleList, providerOrder, List.filter,
    initState, initProviders, check_rate_limit, smart_selection, pyMaxByAux, calculate_score,
    is_local_provider, String.length, process_with_provider, oracleHFLocalOnly,
    afterReset, resetStep, recordAt, update_provider_stats, try_fallback, fallback_candidates,
    pySortByKey, pyInsert, List.foldl, try_fallback_go, AIProvider.value]

/-- C4 (amended): the registry update (`_update_provider_stats`: `last_used`
stamp, `error_count` adjustment, status change, rate-counter increment) is
performed exactly once, for the FIRST-selected provider's dispatch attempt
only, success or failure alike; dispatch attempts made during fallback
perform no registry update and no rate-limit increment. -/
theorem C4_stats_only_first_attempt (oracle : AIProvider → Option ProviderResult) (r : ℕ)
    (elapsed now : ℚ) (st : ManagerState) (msg : String) :
    (process_request oracle r elapsed now st msg).2.2.head? =
      some (select_provider st msg now) ∧
    (process_request oracle r elapsed now st msg).2.1.providers
        (select_provider st msg now) =
      update_provider_stats (afterReset st.providers now (select_provider st msg now))
        ((process_with_provider oracle r elapsed (select_provider st msg now) msg).isSome)
        now ∧
    (∀ p, p ≠ select_provider st msg now →
      (process_request oracle r elapsed now st msg).2.1.providers p =
        afterReset st.providers now p) := by
  obtain ⟨hprov, -, -, hhead⟩ := process_request_effects oracle r elapsed now st msg
  refine ⟨hhead, ?_, ?_⟩
  · rw [hprov, recordAt, if_pos rfl]
  · intro p hp
    rw [hprov, recordAt, if_neg hp]

/-- C4 witness: in the all-success scenario the non-selected OPENAI_CLOUD
provider's state is exactly the post-reset state, untouched by recording. -/
theorem C4_witness :
    (process_request oracleAllOk 0 1 100 initState "hello").2.1.providers .openai_cloud =
      afterReset initState.providers 100 .openai_cloud :=
  (C4_stats_only_first_attempt oracleAllOk 0 1 100 initState "hello").2.2 .openai_cloud
    (by norm_num +decide [select_provider, eligibleList, providerOrder, List.filter,
      initState, initProviders, check_rate_limit, smart_selection, pyMaxByAux,
      calculate_score, is_local_provider, String.length])

/-- C5 (amended): when the first-selected provider P0 fails, the fallback
coordinator attempts exactly the providers with status AVAILABLE excluding P0
— the rate limit is NOT consulted — in ascending priority order, stopping at
the first success; a successful outcome is marked `fallback_used = True` with
`original_provider_failed` equal to P0's identity. -/
theorem C5_fallback_chain_amended (oracle : AIProvider → Option ProviderResult) (r : ℕ)
    (elapsed : ℚ) (ps : AIProvider → ProviderInfo) (msg : String) (exclude : AIProvider) :
    (∀ p, p ∈ fallback_candidates ps exclude ↔
        (p ≠ exclude ∧ (ps p).status = .AVAILABLE)) ∧
    (fallback_candidates ps exclude).Pairwise
        (fun a b => (ps a).priority ≤ (ps b).priority) ∧
    (try_fallback oracle r elapsed ps msg exclude).2 =
      (fallback_candidates ps exclude).takeWhile
          (fun p => (process_with_provider oracle r elapsed p msg).isNone) ++
        ((fallback_candidates ps exclude).dropWhile
          (fun p => (process_with_provider oracle r elapsed p msg).isNone)).take 1 ∧
    (∀ p ∈ fallback_candidates ps exclude,
        (process_with_provider oracle r elapsed p msg).isSome →
        (try_fallback oracle r elapsed ps msg exclude).1.fallback_used = some true ∧
        (try_fallback oracle r elapsed ps msg exclude).1.original_provider_failed =
          some exclude.value) := by
  refine ⟨mem_fallback_candidates ps exclude, ?_, ?_, ?_⟩
  · exact pairwise_pySortByKey _ _
  · exact try_fallback_go_attempts oracle r elapsed msg exclude (fallback_candidates ps exclude)
  · intro p hp hps
    exact try_fallback_go_success oracle r elapsed msg exclude
      (fallback_candidates ps exclude) ⟨p, hp, hps⟩

/-- C5 witness: the fallback candidate set of the initial table excluding
OLLAMA_LOCAL contains HUGGINGFACE_LOCAL. -/
theorem C5_witness :
    AIProvider.huggingface_local ∈ fallback_candidates initProviders .ollama_local ∧
    (try_fallback oracleHFLocalOnly 0 1 initProviders "hello" .ollama_local).1.fallback_used =
      some true :=
  ⟨(C5_fallback_chain_amended oracleHFLocalOnly 0 1 initProviders "hello" .ollama_local).1
      .huggingface_local |>.2 ⟨by decide, by norm_num [initProviders]⟩,
   ((C5_fallback_chain_amended oracleHFLocalOnly 0 1 initProviders "hello" .ollama_local).2.2.2
      .huggingface_local
      ((C5_fallback_chain_amended oracleHFLocalOnly 0 1 initProviders "hello"
          .ollama_local).1 .huggingface_local |>.2 ⟨by decide, by norm_num [initProviders]⟩)
      (by norm_num [process_with_provider, oracleHFLocalOnly])).1⟩

/-- Provider table for the C5 counterexample: HUGGINGFACE_CLOUD is AVAILABLE
but its hourly window is saturated (current = max = 1000) with `last_used`
inside the window, so it is NOT eligible; the remaining providers except
OLLAMA_LOCAL are in ERROR. -/
def cexC5 : AIProvider → ProviderInfo
  | .ollama_local => initProviders .ollama_local
  | .huggingface_local => { initProviders .huggingface_local with status := .ERROR, error_count := 3 }
  | .huggingface_cloud => { initProviders .huggingface_cloud with
      last_used := 100,
      rate_limit := some { max_requests := 1000, window := .per_hour, current := 1000 } }
  | .openai_cloud => { initProviders .openai_cloud with status := .ERROR, error_count := 3 }
  | .fallback_local => { initProviders .fallback_local with status := .ERROR, error_count := 3 }

/-- Manager state around `cexC5`. -/
def cexC5State : ManagerState :=
  { providers := cexC5, routing_strategy := "smart", fallback_enabled := true }

/-- Oracle for the C5 counterexample: only the rate-limited HUGGINGFACE_CLOUD
capability responds. -/
def oracleC5 : AIProvider → Option ProviderResult
  | .huggingface_cloud => some { response := "cloud reply", confidence := 22/25 }
  | _ => none

/-- C5 counterexample: HUGGINGFACE_CLOUD fails the rate-limit check (so it is
not eligible — the eligible set is just [OLLAMA_LOCAL]), yet after
OLLAMA_LOCAL fails the fallback coordinator dispatches HUGGINGFACE_CLOUD
anyway and returns its response as a fallback success. -/
theorem C5_counterexample :
    (check_rate_limit (cexC5 .huggingface_cloud) 100).2 = false ∧
    eligibleList cexC5 100 = [.ollama_local] ∧
    (process_request oracleC5 0 1 100 cexC5State "hi").2.2 =
      [.ollama_local, .huggingface_cloud] ∧
    (process_request oracleC5 0 1 100 cexC5State "hi").1 =
      .ok { response := "cloud reply", provider_used := none, confidence := 22/25,
            processing_time := some 1, cost_estimate := none, status := none,
            fallback_used := some true, original_provider_failed := some "ollama_local" } := by
  refine ⟨?_, ?_, ?_, ?_⟩ <;>
  norm_num +decide [process_request, select_provider, eligibleList, providerOrder, List.filter,
    cexC5State, cexC5, initProviders, check_rate_limit, smart_selection, pyMaxByAux,
    calculate_score, is_local_provider, String.length, process_with_provider, oracleC5,
    afterReset, resetStep, recordAt, update_provider_stats, try_fallback, fallback_candidates,
    pySortByKey, pyInsert, List.foldl, try_fallback_go, AIProvider.value]

/-- C6: with fallback enabled, `process_request` always returns a result (no
provider-level exception reaches the caller); when the first dispatch fails
and every fallback candidate also fails, the result is the degraded outcome
with `provider_used = "emergency_fallback"`, confidence 0.1 and the generic
apology response — returned, never raised. -/
theorem C6_degraded_no_propagation (oracle : AIProvider → Option ProviderResult) (r : ℕ)
    (elapsed now : ℚ) (st : ManagerState) (msg : String)
    (hfb : st.fallback_enabled = true) :
    (∃ out, (process_request oracle r elapsed now st msg).1 = .ok out) ∧
    (process_with_provider oracle r elapsed (select_provider st msg now) msg = none →
      (∀ p ∈ fallback_candidates
          (recordAt (afterReset st.providers now) (select_provider st msg now) false now)
          (select_provider st msg now),
        process_with_provider oracle r elapsed p msg = none) →
      (process_request oracle r elapsed now st msg).1 = .ok (degraded_outcome msg)) ∧
    (degraded_outcome msg).provider_used = some "emergency_fallback" ∧
    (degraded_outcome msg).confidence = 1/10 := by
  refine ⟨?_, ?_, rfl, rfl⟩
  · unfold process_request
    rcases hd : process_with_provider oracle r elapsed (select_provider st msg now) msg
      with _ | pr <;>
      simp [hd, hfb]
  · intro hd hall
    unfold process_request
    simp only [hd, hfb, if_true]
    rw [try_fallback, try_fallback_go_all_fail oracle r elapsed msg
      (select_provider st msg now) _ hall]

/-- Provider table for the C6 witness: only OLLAMA_LOCAL is AVAILABLE, the
rest are in ERROR, so once OLLAMA_LOCAL fails there is no fallback candidate. -/
def cexC6 : AIProvider → ProviderInfo
  | .ollama_local => initProviders .ollama_local
  | p => { initProviders p with status := .ERROR, error_count := 3 }

/-- Manager state around `cexC6`. -/
def cexC6State : ManagerState :=
  { providers := cexC6, routing_strategy := "smart", fallback_enabled := true }

/-- C6 witness: with every capability raising, the request against `cexC6State`
returns (not raises) the degraded outcome. -/
theorem C6_witness :
    (process_request (fun _ => none) 0 1 100 cexC6State "ping").1 =
      .ok (degraded_outcome "ping") :=
  (C6_degraded_no_propagation (fun _ => none) 0 1 100 cexC6State "ping" rfl).2.1
    (by norm_num +decide [select_provider, eligibleList, providerOrder, List.filter,
      cexC6State, cexC6, initProviders, check_rate_limit, smart_selection, pyMaxByAux,
      calculate_score, is_local_provider, String.length, process_with_provider])
    (by
      intro p hp
      rw [mem_fallback_candidates] at hp
      rcases hp with ⟨hne, hav⟩
      have hsel : select_provider cexC6State "ping" 100 = .ollama_local := by
        norm_num +decide [select_provider, eligibleList, providerOrder, List.filter,
          cexC6State, cexC6, initProviders, check_rate_limit, smart_selection, pyMaxByAux,
          calculate_score, is_local_provider, String.length]
      rw [hsel] at hne hav
      cases p <;>
        first
          | exact absurd rfl hne
          | (exfalso
             revert hav
             norm_num +decide [recordAt, afterReset, resetStep, cexC6State, cexC6,
               initProviders, check_rate_limit, update_provider_stats]))

/-- The eligibility scan's reset side effect never changes a provider's
status, and is the identity on providers with no configured rate limit. -/
theorem resetStep_status (info : ProviderInfo) (now : ℚ) :
    (resetStep info now).status = info.status ∧
    (info.rate_limit = none → resetStep info now = info) := by
  constructor
  · unfold resetStep
    split
    · rcases h : info.rate_limit with _ | rl <;> simp [check_rate_limit, h]
    · rfl
  · intro h
    unfold resetStep
    split <;> simp [check_rate_limit, h]

/-- Recording a success on an AVAILABLE provider with no configured rate
limit keeps it AVAILABLE with no configured rate limit. -/
theorem update_stats_keeps_available (info : ProviderInfo) (now : ℚ)
    (hs : info.status = .AVAILABLE) (hr : info.rate_limit = none) :
    (update_provider_stats info true now).status = .AVAILABLE ∧
    (update_provider_stats info true now).rate_limit = none := by
  rcases info with ⟨s, pr, c, lat, q, lu, rlf, ec⟩
  simp only at hs hr
  subst hs
  subst hr
  simp +decide [update_provider_stats]

/-- Registry invariant of the last-resort provider: AVAILABLE, no rate limit. -/
def FallbackIntact (st : ManagerState) : Prop :=
  (st.providers .fallback_local).status = .AVAILABLE ∧
  (st.providers .fallback_local).rate_limit = none

/-- `set_routing_strategy` never touches the provider table. -/
theorem set_routing_strategy_providers (st : ManagerState) (s : String)
    (st' : ManagerState) (h : set_routing_strategy st s = .ok st') :
    st'.providers = st.providers := by
  unfold set_routing_strategy at h
  split at h
  · injection h with h2
    rw [← h2]
  · exact Except.noConfusion h

/-- Every manager event preserves the last-resort provider's invariant: the
only stats recording in a request targets the first-selected provider, and if
that provider is FALLBACK_LOCAL its dispatch cannot fail, so only a success
is ever recorded against it. -/
theorem stepEvent_fallback_intact (st : ManagerState) (e : ManagerEvent)
    (h : FallbackIntact st) : FallbackIntact (stepEvent st e) := by
  rcases h with ⟨hs, hr⟩
  cases e with
  | setStrategy s =>
      have hstep : stepEvent st (.setStrategy s) =
          (match set_routing_strategy st s with
            | .ok st' => st'
            | .error _ => st) := rfl
      rw [FallbackIntact, hstep]
      rcases hcase : set_routing_strategy st s with e' | st'
      · exact ⟨hs, hr⟩
      · show (st'.providers AIProvider.fallback_local).status = ProviderStatus.AVAILABLE ∧
          (st'.providers AIProvider.fallback_local).rate_limit = none
        rw [set_routing_strategy_providers st s st' hcase]
        exact ⟨hs, hr⟩
  | request oracle r elapsed now msg =>
      obtain ⟨hprov, -, -, -⟩ := process_request_effects oracle r elapsed now st msg
      have h1 : afterReset st.providers now .fallback_local = st.providers .fallback_local :=
        (resetStep_status (st.providers .fallback_local) now).2 hr
      have hstep : stepEvent st (.request oracle r elapsed now msg) =
          (process_request oracle r elapsed now st msg).2.1 := rfl
      rw [FallbackIntact, hstep, hprov]
      unfold recordAt
      by_cases hsel : AIProvider.fallback_local = select_provider st msg now
      · rw [if_pos hsel]
        have hsome :
            (process_with_provider oracle r elapsed (select_provider st msg now) msg).isSome
              = true := by
          rw [← hsel]
          rfl
        rw [hsome, h1]
        exact update_stats_keeps_available (st.providers .fallback_local) now hs hr
      · rw [if_neg hsel, h1]
        exact ⟨hs, hr⟩

/-- The last-resort provider's invariant holds in every reachable state. -/
theorem runEvents_fallback_intact (es : List ManagerEvent) :
    FallbackIntact (runEvents es) := by
  suffices h : ∀ (es : List ManagerEvent) (st : ManagerState), FallbackIntact st →
      FallbackIntact (es.foldl stepEvent st) by
    exact h es initState ⟨rfl, rfl⟩
  intro es
  induction es with
  | nil => exact fun st h => h
  | cons e es ih => exact fun st h => ih (stepEvent st e) (stepEvent_fallback_intact st e h)

/-- C9: when the eligible set is empty, selection returns the last-resort
FALLBACK_LOCAL provider; and in every state reachable from `__init__` by any
sequence of requests and strategy changes, FALLBACK_LOCAL is AVAILABLE with
no rate limit, hence a member of the eligible set at any time. -/
theorem C9_last_resort_always_eligible (es : List ManagerEvent) (now : ℚ) (msg : String)
    (st : ManagerState) (hempty : eligibleList st.providers now = []) :
    select_provider st msg now = .fallback_local ∧
    AIProvider.fallback_local ∈ eligibleList (runEvents es).providers now := by
  constructor
  · unfold select_provider
    rw [hempty]
  · obtain ⟨hs, hr⟩ := runEvents_fallback_intact es
    rw [eligibleList, List.mem_filter]
    refine ⟨by simp [providerOrder], ?_⟩
    simp [check_rate_limit, hs, hr]

/-- Provider table with every provider in ERROR (each after three failures). -/
def allErrorProviders : AIProvider → ProviderInfo :=
  fun p => { initProviders p with status := .ERROR, error_count := 3 }

/-- Manager state around `allErrorProviders`. -/
def allErrorState : ManagerState :=
  { providers := allErrorProviders, routing_strategy := "smart", fallback_enabled := true }

/-- C9 witness: with every provider in ERROR the eligible set is empty and
selection returns FALLBACK_LOCAL; after no events FALLBACK_LOCAL is eligible. -/
theorem C9_witness :
    select_provider allErrorState "x" 0 = .fallback_local ∧
    AIProvider.fallback_local ∈ eligibleList (runEvents []).providers 0 :=
  C9_last_resort_always_eligible [] 0 "x" allErrorState
    (by norm_num +decide [eligibleList, providerOrder, List.filter, allErrorState,
      allErrorProviders, initProviders, check_rate_limit])
